import Mathlib

/-!
# Verification of the provider-pool management subsystem of AIClient-2-API

Shallow embedding of `src/provider-pool-manager.js` and the pool-related part
of `src/service-manager.js`.  JavaScript objects keyed by strings are embedded
as association lists (`List (String × α)`); in-place mutation of a record that
was located by `Array.prototype.find` is embedded as replacement of the first
matching element; object identity of an array element is embedded as its
position in the list (`withIdx` pairs each record with its index so that the
round-robin selector can write back to the exact element it selected, the way
the JS code mutates the found object in place).  Timestamps produced by
`new Date().toISOString()` are abstracted as an opaque `String` argument;
`Date.parse` used by the health sweep is abstracted as a `String → Int`
argument.  Network calls performed during health probes are abstracted as a
`String → ProviderConfig → Bool` oracle, used only after the `checkHealth`
guard, exactly where `_checkProviderHealth` leaves its early-return path.
-/

/-- The `notSupportedModels` field of a provider config is untyped JSON: it can
be absent (or otherwise falsy), present but not an array (any truthy
non-array), or an actual array of model names.  `selectProvider` treats the
first two cases as "supports every model". -/
inductive NSMField where
  | absent
  | nonArray
  | arr (models : List String)
  deriving DecidableEq

/-- Embeds the model filter of `selectProvider` (provider-pool-manager.js
lines 115–122): a record with no `notSupportedModels` array supports every
model; otherwise the record supports `m` iff the array does not contain it. -/
def supportsModelB : NSMField → String → Bool
  | .absent, _ => true
  | .nonArray, _ => true
  | .arr l, m => !(l.contains m)

/-- One provider record (`providerConfig` after `initializeProviderStatus` has
filled the defaults).  Vendor credential fields are irrelevant to every claim
and are omitted; `uuid` is kept because selection and all mutators key on it. -/
structure ProviderConfig where
  uuid : String
  isHealthy : Bool
  isDisabled : Bool
  lastUsed : Option String
  usageCount : Nat
  errorCount : Nat
  lastErrorTime : Option String
  checkHealth : Bool
  checkModelName : Option String
  notSupportedModels : NSMField
  deriving DecidableEq

/-- An entry of `this.providerStatus[providerType]`: the wrapper object
`{ config, uuid }` pushed by `initializeProviderStatus`. -/
structure ProviderStatus where
  config : ProviderConfig
  uuid : String
  deriving DecidableEq

/-- The mutable state of a `ProviderPoolManager` relevant to the claims:
`providerStatus` (pools keyed by provider type), `roundRobinIndex` (cursors
keyed by `providerType` or `providerType:model`), and the two numeric
options. -/
structure PoolState where
  providerStatus : List (String × List ProviderStatus)
  roundRobinIndex : List (String × Nat)
  maxErrorCount : Nat
  healthCheckInterval : Int
  deriving DecidableEq

/-- Association-list read: `obj[k]`, `none` when the key is absent. -/
def alookup {α : Type} : List (String × α) → String → Option α
  | [], _ => none
  | (k', v) :: rest, k => if k' = k then some v else alookup rest k

/-- Association-list write: `obj[k] = v` (replaces the first binding of `k`,
appends when absent — JS object assignment). -/
def aset {α : Type} : List (String × α) → String → α → List (String × α)
  | [], k, v => [(k, v)]
  | (k', v') :: rest, k, v =>
      if k' = k then (k, v) :: rest else (k', v') :: aset rest k v

/-- Apply `g` to the value bound to `k`, leaving everything else unchanged
(in-place mutation of `obj[k]` when the key exists). -/
def amodify {α : Type} : List (String × α) → String → (α → α) → List (String × α)
  | [], _, _ => []
  | (k', v) :: rest, k, g =>
      if k' = k then (k', g v) :: rest else (k', v) :: amodify rest k g

/-- Pair every element of a pool with its position, starting at `n`.  Positions
stand for JS object identity: a filter over the pool keeps references to the
original array elements, and mutating the selected element mutates the pool. -/
def withIdx : Nat → List ProviderStatus → List (Nat × ProviderStatus)
  | _, [] => []
  | n, p :: rest => (n, p) :: withIdx (n + 1) rest

/-- `_findProvider(providerType, uuid)` (lines 54–61): guard against falsy
arguments, then `pool?.find(p => p.uuid === uuid) || null`. -/
def findProvider (st : PoolState) (t u : String) : Option ProviderStatus :=
  if t = "" ∨ u = "" then none
  else
    match alookup st.providerStatus t with
    | none => none
    | some pool => pool.find? (fun p => p.uuid == u)

/-- Replace the first element of a pool whose `uuid` matches, applying `f` to
its config — the in-place mutation performed on the record returned by
`_findProvider`. -/
def updateFirst : List ProviderStatus → String → (ProviderConfig → ProviderConfig) → List ProviderStatus
  | [], _, _ => []
  | p :: rest, u, f =>
      if p.uuid = u then { p with config := f p.config } :: rest
      else p :: updateFirst rest u f

/-- Mutate the config of the provider `_findProvider` located. -/
def modifyProvider (st : PoolState) (t u : String) (f : ProviderConfig → ProviderConfig) : PoolState :=
  { st with providerStatus := amodify st.providerStatus t (fun pool => updateFirst pool u f) }

/-- The per-record transition of `markProviderUnhealthy` (lines 175–183):
increment `errorCount`, stamp `lastErrorTime`, and drop `isHealthy` when the
new count reaches `maxErrorCount`. -/
def unhealthyStep (maxEC : Nat) (now : String) (c : ProviderConfig) : ProviderConfig :=
  let c1 := { c with errorCount := c.errorCount + 1, lastErrorTime := some now }
  if c1.errorCount ≥ maxEC then { c1 with isHealthy := false } else c1

/-- `markProviderUnhealthy(providerType, providerConfig)` (lines 167–187).
`uuidOpt` is `providerConfig?.uuid`; the empty string stands for any falsy
uuid, matching the `!providerConfig?.uuid` guard. -/
def markProviderUnhealthy (st : PoolState) (t : String) (uuidOpt : Option String) (now : String) : PoolState :=
  match uuidOpt with
  | none => st
  | some u =>
      if u = "" then st
      else
        match findProvider st t u with
        | none => st
        | some _ => modifyProvider st t u (unhealthyStep st.maxErrorCount now)

/-- The per-record transition of `markProviderHealthy` (lines 203–209). -/
def healthyStep (resetUsageCount : Bool) (c : ProviderConfig) : ProviderConfig :=
  let c1 := { c with isHealthy := true, errorCount := 0, lastErrorTime := none }
  if resetUsageCount then { c1 with usageCount := 0 } else c1

/-- `markProviderHealthy(providerType, providerConfig, resetUsageCount = false)`
(lines 195–214). -/
def markProviderHealthy (st : PoolState) (t : String) (uuidOpt : Option String) (resetUsageCount : Bool) : PoolState :=
  match uuidOpt with
  | none => st
  | some u =>
      if u = "" then st
      else
        match findProvider st t u with
        | none => st
        | some _ => modifyProvider st t u (healthyStep resetUsageCount)

/-- `resetProviderCounters(providerType, providerConfig)` (lines 221–235):
zero `errorCount` and `usageCount`, touch nothing else. -/
def resetProviderCounters (st : PoolState) (t : String) (uuidOpt : Option String) : PoolState :=
  match uuidOpt with
  | none => st
  | some u =>
      if u = "" then st
      else
        match findProvider st t u with
        | none => st
        | some _ => modifyProvider st t u (fun c => { c with errorCount := 0, usageCount := 0 })

/-- `disableProvider(providerType, providerConfig)` (lines 242–254). -/
def disableProvider (st : PoolState) (t : String) (uuidOpt : Option String) : PoolState :=
  match uuidOpt with
  | none => st
  | some u =>
      if u = "" then st
      else
        match findProvider st t u with
        | none => st
        | some _ => modifyProvider st t u (fun c => { c with isDisabled := true })

/-- `enableProvider(providerType, providerConfig)` (lines 261–273). -/
def enableProvider (st : PoolState) (t : String) (uuidOpt : Option String) : PoolState :=
  match uuidOpt with
  | none => st
  | some u =>
      if u = "" then st
      else
        match findProvider st t u with
        | none => st
        | some _ => modifyProvider st t u (fun c => { c with isDisabled := false })

/-- JS truthiness of the `requestedModel` argument: `null`/`undefined` and the
empty string are falsy, so `selectProvider` treats them as "no model". -/
def normModel : Option String → Option String
  | none => none
  | some m => if m = "" then none else some m

/-- The first filter of `selectProvider` (lines 109–111): healthy and not
disabled, keeping each surviving record paired with its pool position. -/
def healthyEnabled (pool : List ProviderStatus) : List (Nat × ProviderStatus) :=
  (withIdx 0 pool).filter (fun ip => ip.2.config.isHealthy && !ip.2.config.isDisabled)

/-- The second filter of `selectProvider` (lines 115–122): drop records whose
`notSupportedModels` array contains the requested model. -/
def modelFilter (l : List (Nat × ProviderStatus)) (m : String) : List (Nat × ProviderStatus) :=
  l.filter (fun ip => supportsModelB ip.2.config.notSupportedModels m)

/-- The eligible set `selectProvider` draws from, for a (normalized) requested
model: healthy, not disabled, and — when a model is requested — not excluded
for it. -/
def eligibleRecords (st : PoolState) (t : String) (reqModel : Option String) : List (Nat × ProviderStatus) :=
  let pool := (alookup st.providerStatus t).getD []
  let healthy := healthyEnabled pool
  match reqModel with
  | none => healthy
  | some m => modelFilter healthy m

/-- The usage stamp applied to the selected record (lines 151–152):
`lastUsed = now`, `usageCount += 1`. -/
def bumpUsage (now : String) (c : ProviderConfig) : ProviderConfig :=
  { c with lastUsed := some now, usageCount := c.usageCount + 1 }

/-- `selectProvider(providerType, requestedModel = null)` (lines 101–160).
Returns the selected record's config (after the usage stamp) together with the
updated state; `none` when the parameter check fails, the model filter empties
the candidate list, or no healthy enabled provider exists.  The cursor for the
rotation key is read with default 0, the selected index is the cursor modulo
the current eligible length, and the stored cursor becomes
`(cursor + 1) % length`. -/
def selectProvider (st : PoolState) (providerType : String) (requestedModel : Option String) (now : String) :
    Option ProviderConfig × PoolState :=
  if providerType = "" then (none, st)
  else
    let reqModel := normModel requestedModel
    let pool := (alookup st.providerStatus providerType).getD []
    let healthy := healthyEnabled pool
    let eligOpt : Option (List (Nat × ProviderStatus)) :=
      match reqModel with
      | some m =>
          let mf := modelFilter healthy m
          if mf.isEmpty then none else some mf
      | none => some healthy
    match eligOpt with
    | none => (none, st)
    | some [] => (none, st)
    | some (e0 :: rest) =>
        let eligible := e0 :: rest
        let len := eligible.length
        let indexKey :=
          match reqModel with
          | some m => providerType ++ ":" ++ m
          | none => providerType
        let currentIndex := (alookup st.roundRobinIndex indexKey).getD 0
        let providerIndex := currentIndex % len
        let sel := eligible.getD providerIndex e0
        let newConfig := bumpUsage now sel.2.config
        let newPool := pool.set sel.1 { sel.2 with config := newConfig }
        (some newConfig,
         { st with
             providerStatus := aset st.providerStatus providerType newPool,
             roundRobinIndex := aset st.roundRobinIndex indexKey ((currentIndex + 1) % len) })

/-- `n` sequential `selectProvider` calls with no requested model, threading
the state; returns the list of results in call order. -/
def selectRun (st : PoolState) (t now : String) : Nat → List (Option ProviderConfig)
  | 0 => []
  | n + 1 =>
      let r := selectProvider st t none now
      r.1 :: selectRun r.2 t now n

/-- `k` consecutive `markProviderUnhealthy` calls on the same record. -/
def markUnhealthyRun (st : PoolState) (t u now : String) : Nat → PoolState
  | 0 => st
  | k + 1 => markUnhealthyRun (markProviderUnhealthy st t (some u) now) t u now k

/-- Which configuration `getApiService` ends up handing to
`getServiceAdapter`: either the base request config alone, or the base config
deep-merged with a pooled record's config.  The merge itself is vendor-field
bookkeeping outside the claims, so the result only records which branch was
taken and which record was selected. -/
inductive ServiceSource where
  | base
  | pooled (c : ProviderConfig)
  deriving DecidableEq

/-- `getApiService(config, requestedModel)` (service-manager.js lines
245–261), restricted to the branch structure: when a pool manager exists and
`config.providerPools[config.MODEL_PROVIDER]` is present (a JS array is truthy
even when empty), ask `selectProvider`; on a `null` selection, or when the
condition fails, fall back to the base configuration. -/
def getApiService (poolMgr : Option PoolState) (configPoolKeys : List String)
    (modelProvider : String) (requestedModel : Option String) (now : String) :
    ServiceSource × Option PoolState :=
  match poolMgr with
  | none => (.base, none)
  | some st =>
      if modelProvider ∈ configPoolKeys then
        match selectProvider st modelProvider requestedModel now with
        | (some c, st') => (.pooled c, some st')
        | (none, st') => (.base, some st')
      else (.base, some st)

/-- JS truthiness of a nullable string field (`lastErrorTime`): `null` and the
empty string are falsy. -/
def strTruthy : Option String → Bool
  | none => false
  | some s => s != ""

/-- `_checkProviderHealth(providerType, providerConfig)` (lines 369–412):
returns `null` when `checkHealth` is falsy; everything after that guard —
adapter construction, model lookup, the network probe, and the internal catch
that converts any exception into `false` — is abstracted as the `probe`
oracle. -/
def checkProviderHealth (probe : String → ProviderConfig → Bool) (t : String) (c : ProviderConfig) : Option Bool :=
  if !c.checkHealth then none
  else some (probe t c)

/-- The body of the inner loop of `performHealthChecks` (lines 286–326) for
one record config `c`: skip when the record is unhealthy and its last error is
too recent; otherwise reset counters when the check is not configured, or mark
the record healthy/unhealthy according to the probe outcome. -/
def sweepRecordAct (getTimeMs : String → Int) (nowMs : Int) (nowStr : String)
    (probe : String → ProviderConfig → Bool) (st : PoolState) (t : String)
    (c : ProviderConfig) : PoolState :=
  if !c.isHealthy && strTruthy c.lastErrorTime &&
      decide (nowMs - getTimeMs (c.lastErrorTime.getD "") < st.healthCheckInterval) then
    st
  else
    match checkProviderHealth probe t c with
    | none => resetProviderCounters st t (some c.uuid)
    | some true => markProviderHealthy st t (some c.uuid) false
    | some false => markProviderUnhealthy st t (some c.uuid) nowStr

/-- One iteration of the inner loop of `performHealthChecks` (lines 284–327),
processing the record at position `i` of the pool for type `t` in the current
state.  `getTimeMs` abstracts `new Date(s).getTime()`, `nowMs` the sweep's
captured `now.getTime()`, and `nowStr` the ISO timestamp a mutator would
stamp. -/
def sweepRecord (getTimeMs : String → Int) (nowMs : Int) (nowStr : String)
    (probe : String → ProviderConfig → Bool) (st : PoolState) (t : String) (i : Nat) : PoolState :=
  match (alookup st.providerStatus t).bind (fun pool => pool.get? i) with
  | none => st
  | some ps => sweepRecordAct getTimeMs nowMs nowStr probe st t ps.config

/-- The inner loop of `performHealthChecks` over one pool: the JS `for…of`
walks the array that exists when the loop starts; no sweep action changes a
pool's length, so iterating positions `0 … n-1` of the evolving state is the
in-place iteration of the source. -/
def sweepPool (getTimeMs : String → Int) (nowMs : Int) (nowStr : String)
    (probe : String → ProviderConfig → Bool) (st : PoolState) (t : String) : PoolState :=
  let n := ((alookup st.providerStatus t).getD []).length
  (List.range n).foldl (fun s i => sweepRecord getTimeMs nowMs nowStr probe s t i) st

/-- `performHealthChecks()` (lines 279–329): walk every provider type, then
every record of its pool, skipping records that are unhealthy with a recent
`lastErrorTime`, resetting counters for records whose check is not configured,
and marking the rest healthy or unhealthy according to the probe. -/
def performHealthChecks (getTimeMs : String → Int) (nowMs : Int) (nowStr : String)
    (probe : String → ProviderConfig → Bool) (st : PoolState) : PoolState :=
  (st.providerStatus.map Prod.fst).foldl (fun s t => sweepPool getTimeMs nowMs nowStr probe s t) st

/-- Outcome of the `fs.promises.readFile` call inside `_flushPendingSaves`:
file content parsed, `ENOENT` (treated as an empty document), or any other
error (re-thrown into the surrounding catch). -/
inductive ReadResult where
  | ok (pools : List (String × List ProviderConfig))
  | enoent
  | otherError
  deriving DecidableEq

/-- The coalescer's own state: the pending-save set and whether the debounce
timer handle is set. -/
structure CoalescerState where
  pendingSaves : List String
  saveTimerSet : Bool
  deriving DecidableEq

/-- Serialization of one pool for the on-disk document (lines 464–474): the
config of each record.  `lastUsed`/`lastErrorTime` are already ISO strings in this
embedding, so the `instanceof Date` conversion is the identity. -/
def serializePool (pool : List ProviderStatus) : List ProviderConfig :=
  pool.map (fun p => p.config)

/-- `_flushPendingSaves()` (lines 438–486).  The pending set and the timer
handle are cleared before the try block; a read failure other than `ENOENT`
and a write failure are both caught and only logged, so the function is total
and never restores the pending set.  `readRes`/`writeOk` stand for the two
I/O outcomes; the returned pair is the new coalescer state and the resulting
on-disk document. -/
def flushPendingSaves (cs : CoalescerState) (st : PoolState)
    (disk : List (String × List ProviderConfig)) (readRes : ReadResult) (writeOk : Bool) :
    CoalescerState × List (String × List ProviderConfig) :=
  let typesToSave := cs.pendingSaves
  if typesToSave.isEmpty then (cs, disk)
  else
    let cs' : CoalescerState := { pendingSaves := [], saveTimerSet := false }
    match readRes with
    | .otherError => (cs', disk)
    | _ =>
        let currentPools := match readRes with | .ok pools => pools | _ => []
        let updated := typesToSave.foldl (fun acc t =>
          match alookup st.providerStatus t with
          | some pool => aset acc t (serializePool pool)
          | none => acc) currentPools
        if writeOk then (cs', updated) else (cs', disk)

/-! ## Lemmas about the association-list and pool helpers -/

theorem alookup_aset_self {α : Type} (l : List (String × α)) (k : String) (v : α) :
    alookup (aset l k v) k = some v := by
  induction l with
  | nil => simp [aset, alookup]
  | cons kv rest ih =>
      by_cases h : kv.1 = k
      · simp [aset, h, alookup]
      · simp [aset, h, alookup, ih]

theorem alookup_aset_ne {α : Type} (l : List (String × α)) (k k' : String) (v : α)
    (h : k' ≠ k) : alookup (aset l k v) k' = alookup l k' := by
  induction l with
  | nil => simp [aset, alookup, Ne.symm h]
  | cons kv rest ih =>
      by_cases hk : kv.1 = k
      · simp [aset, hk, alookup, Ne.symm h]
      · simp [aset, hk, alookup, ih]

theorem alookup_amodify_self {α : Type} (l : List (String × α)) (k : String) (g : α → α) :
    alookup (amodify l k g) k = (alookup l k).map g := by
  induction l with
  | nil => simp [amodify, alookup]
  | cons kv rest ih =>
      by_cases h : kv.1 = k
      · simp [amodify, h, alookup]
      · simp [amodify, h, alookup, ih]

theorem alookup_amodify_ne {α : Type} (l : List (String × α)) (k k' : String) (g : α → α)
    (h : k' ≠ k) : alookup (amodify l k g) k' = alookup l k' := by
  induction l with
  | nil => simp [amodify, alookup]
  | cons kv rest ih =>
      by_cases hk : kv.1 = k
      · simp [amodify, hk, alookup, Ne.symm h]
      · simp [amodify, hk, alookup, ih]

theorem withIdx_length (n : Nat) (l : List ProviderStatus) :
    (withIdx n l).length = l.length := by
  induction l generalizing n with
  | nil => rfl
  | cons p rest ih => simp [withIdx, ih]

theorem withIdx_get? (n : Nat) (l : List ProviderStatus) (j : Nat) :
    (withIdx n l).get? j = (l.get? j).map (fun p => (n + j, p)) := by
  induction l generalizing n j with
  | nil => simp [withIdx]
  | cons p rest ih =>
      cases j with
      | zero => simp [withIdx]
      | succ j =>
          simp only [withIdx, List.get?_cons_succ, ih]
          cases rest.get? j <;> simp [Nat.add_assoc, Nat.add_comm 1 j]

theorem mem_withIdx (n : Nat) (l : List ProviderStatus) (i : Nat) (p : ProviderStatus) :
    (i, p) ∈ withIdx n l ↔ ∃ j, i = n + j ∧ l.get? j = some p := by
  induction l generalizing n with
  | nil => simp [withIdx]
  | cons q rest ih =>
      simp only [withIdx, List.mem_cons, ih, Prod.mk.injEq]
      constructor
      · rintro (⟨rfl, rfl⟩ | ⟨j, rfl, hj⟩)
        · exact ⟨0, by simp⟩
        · exact ⟨j + 1, by omega, by simpa using hj⟩
      · rintro ⟨j, rfl, hj⟩
        cases j with
        | zero =>
            left
            simp only [List.get?_cons_zero, Option.some.injEq] at hj
            exact ⟨by omega, hj.symm⟩
        | succ j => right; exact ⟨j, by omega, by simpa using hj⟩

theorem mem_withIdx_zero (l : List ProviderStatus) (i : Nat) (p : ProviderStatus) :
    (i, p) ∈ withIdx 0 l ↔ l.get? i = some p := by
  rw [mem_withIdx]
  constructor
  · rintro ⟨j, rfl, hj⟩; simpa using hj
  · intro h; exact ⟨i, by omega, h⟩

theorem snd_mem_of_mem_withIdx {n : Nat} {l : List ProviderStatus} {ip : Nat × ProviderStatus}
    (h : ip ∈ withIdx n l) : ip.2 ∈ l := by
  obtain ⟨i, p⟩ := ip
  obtain ⟨j, _, hj⟩ := (mem_withIdx n l i p).mp h
  exact List.get?_mem hj

theorem updateFirst_length (pool : List ProviderStatus) (u : String)
    (f : ProviderConfig → ProviderConfig) : (updateFirst pool u f).length = pool.length := by
  induction pool with
  | nil => rfl
  | cons p rest ih =>
      by_cases h : p.uuid = u <;> simp [updateFirst, h, ih]

theorem updateFirst_get?_cases (pool : List ProviderStatus) (u : String)
    (f : ProviderConfig → ProviderConfig) (j : Nat) :
    (updateFirst pool u f).get? j = pool.get? j ∨
      ∃ p, pool.get? j = some p ∧ p.uuid = u ∧
        (updateFirst pool u f).get? j = some { p with config := f p.config } := by
  induction pool generalizing j with
  | nil => left; rfl
  | cons p rest ih =>
      by_cases h : p.uuid = u
      · cases j with
        | zero => right; exact ⟨p, rfl, h, by simp [updateFirst, h]⟩
        | succ j => left; simp [updateFirst, h]
      · cases j with
        | zero => left; simp [updateFirst, h]
        | succ j =>
            rcases ih j with hc | ⟨q, hq, hqu, hq'⟩
            · left; simpa [updateFirst, h] using hc
            · right; exact ⟨q, by simpa using hq, hqu, by simpa [updateFirst, h] using hq'⟩

theorem updateFirst_get?_ne {pool : List ProviderStatus} {u : String}
    {f : ProviderConfig → ProviderConfig} {j : Nat} {p : ProviderStatus}
    (h : pool.get? j = some p) (hne : p.uuid ≠ u) :
    (updateFirst pool u f).get? j = some p := by
  rcases updateFirst_get?_cases pool u f j with hc | ⟨q, hq, hqu, _⟩
  · rw [hc, h]
  · rw [h] at hq; cases hq; exact absurd hqu hne

theorem updateFirst_find? {pool : List ProviderStatus} {u : String}
    {f : ProviderConfig → ProviderConfig} {p : ProviderStatus}
    (h : pool.find? (fun q => q.uuid == u) = some p) :
    (updateFirst pool u f).find? (fun q => q.uuid == u) =
      some { p with config := f p.config } := by
  induction pool with
  | nil => simp at h
  | cons q rest ih =>
      by_cases hq : q.uuid = u
      · rw [List.find?_cons_of_pos _ (by simp [hq])] at h
        cases h
        simp [updateFirst, hq, List.find?_cons_of_pos]
      · rw [List.find?_cons_of_neg _ (by simp [hq])] at h
        simp only [updateFirst, if_neg hq]
        rw [List.find?_cons_of_neg _ (by simp [hq])]
        exact ih h

/-! ## Lemmas about `_findProvider` and the mutators -/

theorem findProvider_some_guards {st : PoolState} {t u : String} {p : ProviderStatus}
    (h : findProvider st t u = some p) : t ≠ "" ∧ u ≠ "" := by
  by_contra hc
  rw [not_and_or, not_not, not_not] at hc
  rw [findProvider, if_pos (by tauto)] at h
  exact Option.noConfusion h

theorem findProvider_some_elim {st : PoolState} {t u : String} {p : ProviderStatus}
    (h : findProvider st t u = some p) :
    ∃ pool, alookup st.providerStatus t = some pool ∧
      pool.find? (fun q => q.uuid == u) = some p := by
  rw [findProvider] at h
  split at h
  · exact Option.noConfusion h
  · revert h
    cases halook : alookup st.providerStatus t with
    | none => intro h; exact Option.noConfusion h
    | some pool => intro h; exact ⟨pool, rfl, h⟩

theorem findProvider_modifyProvider {st : PoolState} {t u : String} {p : ProviderStatus}
    (f : ProviderConfig → ProviderConfig) (h : findProvider st t u = some p) :
    findProvider (modifyProvider st t u f) t u = some { p with config := f p.config } := by
  obtain ⟨ht, hu⟩ := findProvider_some_guards h
  obtain ⟨pool, halook, hfind⟩ := findProvider_some_elim h
  have halook' : alookup (modifyProvider st t u f).providerStatus t =
      some (updateFirst pool u f) := by
    simp only [modifyProvider]
    rw [alookup_amodify_self, halook]; rfl
  rw [findProvider, if_neg (by tauto), halook']
  exact updateFirst_find? hfind

theorem modifyProvider_fields (st : PoolState) (t u : String) (f : ProviderConfig → ProviderConfig) :
    (modifyProvider st t u f).roundRobinIndex = st.roundRobinIndex ∧
    (modifyProvider st t u f).maxErrorCount = st.maxErrorCount ∧
    (modifyProvider st t u f).healthCheckInterval = st.healthCheckInterval :=
  ⟨rfl, rfl, rfl⟩

theorem markProviderUnhealthy_eq_modify {st : PoolState} {t u : String} {p : ProviderStatus}
    (now : String) (h : findProvider st t u = some p) :
    markProviderUnhealthy st t (some u) now =
      modifyProvider st t u (unhealthyStep st.maxErrorCount now) := by
  obtain ⟨_, hu⟩ := findProvider_some_guards h
  rw [markProviderUnhealthy]
  simp only [if_neg hu, h]

theorem markProviderHealthy_eq_modify {st : PoolState} {t u : String} {p : ProviderStatus}
    (b : Bool) (h : findProvider st t u = some p) :
    markProviderHealthy st t (some u) b = modifyProvider st t u (healthyStep b) := by
  obtain ⟨_, hu⟩ := findProvider_some_guards h
  rw [markProviderHealthy]
  simp only [if_neg hu, h]

theorem resetProviderCounters_eq_modify {st : PoolState} {t u : String} {p : ProviderStatus}
    (h : findProvider st t u = some p) :
    resetProviderCounters st t (some u) =
      modifyProvider st t u (fun c => { c with errorCount := 0, usageCount := 0 }) := by
  obtain ⟨_, hu⟩ := findProvider_some_guards h
  rw [resetProviderCounters]
  simp only [if_neg hu, h]

theorem markProviderUnhealthy_maxEC (st : PoolState) (t : String) (uuidOpt : Option String)
    (now : String) : (markProviderUnhealthy st t uuidOpt now).maxErrorCount = st.maxErrorCount := by
  rcases uuidOpt with _ | u
  · rfl
  · by_cases hu : u = ""
    · simp [markProviderUnhealthy, hu]
    · cases hf : findProvider st t u <;>
        simp [markProviderUnhealthy, hu, hf, modifyProvider]

theorem markUnhealthyRun_spec :
    ∀ (k : Nat) (st : PoolState) (t u now : String) (p : ProviderStatus),
      st.maxErrorCount = 3 →
      findProvider st t u = some p →
      ∃ p', findProvider (markUnhealthyRun st t u now k) t u = some p' ∧
        p'.config.errorCount = p.config.errorCount + k ∧
        p'.config.lastErrorTime = (if k = 0 then p.config.lastErrorTime else some now) ∧
        (p'.config.isHealthy = true ↔
          (p.config.isHealthy = true ∧ (k = 0 ∨ p.config.errorCount + k < 3))) := by
  intro k
  induction k with
  | zero =>
      intro st t u now p _ h
      exact ⟨p, h, by omega, by simp, by tauto⟩
  | succ k ih =>
      intro st t u now p hmax h
      have hstep : markUnhealthyRun st t u now (k + 1) =
          markUnhealthyRun (markProviderUnhealthy st t (some u) now) t u now k := rfl
      have h1 : findProvider (markProviderUnhealthy st t (some u) now) t u =
          some { p with config := unhealthyStep 3 now p.config } := by
        rw [markProviderUnhealthy_eq_modify now h, hmax]
        exact findProvider_modifyProvider _ h
      have hmax1 : (markProviderUnhealthy st t (some u) now).maxErrorCount = 3 := by
        rw [markProviderUnhealthy_maxEC]; exact hmax
      have hq : (unhealthyStep 3 now p.config).errorCount = p.config.errorCount + 1 := by
        simp only [unhealthyStep]; split <;> rfl
      have hl : (unhealthyStep 3 now p.config).lastErrorTime = some now := by
        simp only [unhealthyStep]; split <;> rfl
      have hhb : (unhealthyStep 3 now p.config).isHealthy = true ↔
          (p.config.isHealthy = true ∧ p.config.errorCount + 1 < 3) := by
        simp only [unhealthyStep]
        split
        · rename_i hge
          simp only [ge_iff_le] at hge
          constructor
          · intro hfalse
            simp at hfalse
          · rintro ⟨_, hlt⟩
            omega
        · rename_i hge
          simp only [ge_iff_le, not_le] at hge
          constructor
          · intro hx
            exact ⟨hx, by omega⟩
          · rintro ⟨hx, _⟩
            exact hx
      obtain ⟨p', hfind', hec, hlet, hiff⟩ :=
        ih (markProviderUnhealthy st t (some u) now) t u now _ hmax1 h1
      rw [hstep]
      refine ⟨p', hfind', ?_, ?_, ?_⟩
      · simp only [hq] at hec; omega
      · simp only [hl] at hlet
        rw [hlet]
        split <;> simp
      · simp only [hq, hhb] at hiff
        rw [hiff]
        constructor
        · rintro ⟨⟨hA, hB⟩, hk0 | hC⟩ <;> exact ⟨hA, Or.inr (by omega)⟩
        · rintro ⟨hA, hk | hD⟩
          · exact absurd hk (by omega)
          · exact ⟨⟨hA, by omega⟩, Or.inr (by omega)⟩

theorem withIdx_zero_getD (l : List ProviderStatus) (i : Nat) (d : Nat × ProviderStatus)
    (d' : ProviderStatus) (h : i < l.length) :
    (withIdx 0 l).getD i d = (i, l.getD i d') := by
  rw [List.getD_eq_getD_get?, withIdx_get?, List.getD_eq_getD_get?, List.get?_eq_get h]
  simp

/-- When the whole pool is healthy and enabled and no model is requested,
`selectProvider` picks the record at `cursor % length`, stamps it, writes it
back at its position, and advances the stored cursor to `(cursor + 1) %
length`. -/
theorem selectProvider_all_healthy
    (st : PoolState) (t now : String) (qs : List ProviderStatus) (q0 : ProviderStatus)
    (ht : t ≠ "") (hq : alookup st.providerStatus t = some qs) (hne : qs ≠ [])
    (hflags : ∀ p ∈ qs, p.config.isHealthy = true ∧ p.config.isDisabled = false) :
    selectProvider st t none now =
      (some (bumpUsage now ((qs.getD (((alookup st.roundRobinIndex t).getD 0) % qs.length) q0).config)),
       { st with
           providerStatus := aset st.providerStatus t
             (qs.set (((alookup st.roundRobinIndex t).getD 0) % qs.length)
               { qs.getD (((alookup st.roundRobinIndex t).getD 0) % qs.length) q0 with
                 config := bumpUsage now ((qs.getD (((alookup st.roundRobinIndex t).getD 0) % qs.length) q0).config) }),
           roundRobinIndex := aset st.roundRobinIndex t
             ((((alookup st.roundRobinIndex t).getD 0) + 1) % qs.length) }) := by
  have hhe : healthyEnabled qs = withIdx 0 qs := by
    unfold healthyEnabled
    apply List.filter_eq_self.mpr
    intro a ha
    obtain ⟨h1, h2⟩ := hflags a.2 (snd_mem_of_mem_withIdx ha)
    simp [h1, h2]
  simp only [selectProvider, if_neg ht, normModel, hq, Option.getD_some, hhe]
  cases qs with
  | nil => exact absurd rfl hne
  | cons q qs2 =>
      simp only [withIdx]
      have hlen : ((0, q) :: withIdx (0 + 1) qs2).length = (q :: qs2).length := by
        rw [show ((0, q) :: withIdx (0 + 1) qs2) = withIdx 0 (q :: qs2) from rfl, withIdx_length]
      have hmod : (alookup st.roundRobinIndex t).getD 0 % (q :: qs2).length < (q :: qs2).length :=
        Nat.mod_lt _ (by simp)
      have hgetD : ((0, q) :: withIdx (0 + 1) qs2).getD
            ((alookup st.roundRobinIndex t).getD 0 % (q :: qs2).length) (0, q) =
          (((alookup st.roundRobinIndex t).getD 0 % (q :: qs2).length),
            (q :: qs2).getD ((alookup st.roundRobinIndex t).getD 0 % (q :: qs2).length) q0) := by
        rw [show ((0, q) :: withIdx (0 + 1) qs2) = withIdx 0 (q :: qs2) from rfl]
        exact withIdx_zero_getD _ _ _ _ hmod
      simp only [hlen, hgetD]

/-! ## Concrete fixtures used by the witnesses -/

/-- A fresh, fully-defaulted provider record. -/
def exConfig (u : String) : ProviderConfig :=
  { uuid := u, isHealthy := true, isDisabled := false, lastUsed := none,
    usageCount := 0, errorCount := 0, lastErrorTime := none, checkHealth := true,
    checkModelName := none, notSupportedModels := .absent }

/-- The pool-entry wrapper for a fresh record. -/
def exStatus (u : String) : ProviderStatus := { config := exConfig u, uuid := u }

/-- A pool of three healthy enabled records under type `"A"`, cursor at 1. -/
def exPool : PoolState :=
  { providerStatus := [("A", [exStatus "a1", exStatus "a2", exStatus "a3"])],
    roundRobinIndex := [("A", 1)],
    maxErrorCount := 3, healthCheckInterval := 600000 }

/-- A pool with a single fresh record under type `"A"`. -/
def exPool1 : PoolState :=
  { providerStatus := [("A", [exStatus "a1"])],
    roundRobinIndex := [("A", 0)],
    maxErrorCount := 3, healthCheckInterval := 600000 }

/-- A record with accumulated errors and usage, currently unhealthy. -/
def exDirty : ProviderConfig :=
  { uuid := "d1", isHealthy := false, isDisabled := false, lastUsed := none,
    usageCount := 7, errorCount := 5, lastErrorTime := some "2024-01-01T00:00:00.000Z",
    checkHealth := true, checkModelName := none, notSupportedModels := .absent }

/-- A pool holding only the dirty record. -/
def exPoolDirty : PoolState :=
  { providerStatus := [("A", [{ config := exDirty, uuid := "d1" }])],
    roundRobinIndex := [],
    maxErrorCount := 3, healthCheckInterval := 600000 }

/-! ## Claim theorems -/

/-- C2: with `maxErrorCount = 3`, `k` consecutive `markProviderUnhealthy` calls
on a known record that starts healthy with `errorCount = 0` leave it with
`errorCount = k` and `lastErrorTime` set, and `isHealthy` is `false` iff
`k ≥ 3` — so the flag flips exactly on the third call, not before. -/
theorem markUnhealthy_circuit_breaker
    (st : PoolState) (t u now : String) (p : ProviderStatus) (k : Nat)
    (hmax : st.maxErrorCount = 3)
    (hfind : findProvider st t u = some p)
    (hec : p.config.errorCount = 0)
    (hhealthy : p.config.isHealthy = true)
    (hk : 1 ≤ k) :
    ∃ p', findProvider (markUnhealthyRun st t u now k) t u = some p' ∧
      p'.config.errorCount = k ∧
      p'.config.lastErrorTime = some now ∧
      (p'.config.isHealthy = false ↔ 3 ≤ k) := by
  obtain ⟨p', hfind', hec', hlet', hiff'⟩ := markUnhealthyRun_spec k st t u now p hmax hfind
  refine ⟨p', hfind', ?_, ?_, ?_⟩
  · rw [hec', hec]; omega
  · rw [hlet', if_neg (by omega)]
  · constructor
    · intro hf
      by_contra hnot
      have hklt : p.config.errorCount + k < 3 := by omega
      have htrue := hiff'.mpr ⟨hhealthy, Or.inr hklt⟩
      rw [htrue] at hf
      exact Bool.noConfusion hf
    · intro h3
      cases hcase : p'.config.isHealthy
      · rfl
      · obtain ⟨_, h0 | hlt⟩ := hiff'.mp hcase <;> omega

/-- Witness for C2: three calls on a fresh single-record pool yield
`errorCount = 3`, a stamped `lastErrorTime`, and `isHealthy = false`. -/
theorem markUnhealthy_circuit_breaker_witness :
    findProvider exPool1 "A" "a1" = some (exStatus "a1") ∧
    ∃ p', findProvider (markUnhealthyRun exPool1 "A" "a1" "2024-06-01T00:00:00.000Z" 3) "A" "a1" = some p' ∧
      p'.config.errorCount = 3 ∧
      p'.config.lastErrorTime = some "2024-06-01T00:00:00.000Z" ∧
      (p'.config.isHealthy = false ↔ 3 ≤ 3) :=
  ⟨by decide,
   markUnhealthy_circuit_breaker exPool1 "A" "a1" "2024-06-01T00:00:00.000Z" (exStatus "a1") 3
     (by decide) (by decide) (by decide) (by decide) (by decide)⟩

/-- C6: `markProviderHealthy` on a known record sets `isHealthy = true`,
`errorCount = 0`, clears `lastErrorTime`, and zeroes `usageCount` exactly when
the reset flag is `true`, leaving it unchanged otherwise. -/
theorem markHealthy_resets_state
    (st : PoolState) (t u : String) (p : ProviderStatus) (b : Bool)
    (hfind : findProvider st t u = some p) :
    ∃ p', findProvider (markProviderHealthy st t (some u) b) t u = some p' ∧
      p'.config.isHealthy = true ∧
      p'.config.errorCount = 0 ∧
      p'.config.lastErrorTime = none ∧
      p'.config.usageCount = (if b then 0 else p.config.usageCount) := by
  rw [markProviderHealthy_eq_modify b hfind]
  refine ⟨_, findProvider_modifyProvider _ hfind, ?_, ?_, ?_, ?_⟩ <;>
    cases b <;> simp [healthyStep]

/-- Witness for C6: recovering the dirty record without the reset flag zeroes
the error state but keeps `usageCount = 7`. -/
theorem markHealthy_resets_state_witness :
    findProvider exPoolDirty "A" "d1" = some { config := exDirty, uuid := "d1" } ∧
    ∃ p', findProvider (markProviderHealthy exPoolDirty "A" (some "d1") false) "A" "d1" = some p' ∧
      p'.config.isHealthy = true ∧
      p'.config.errorCount = 0 ∧
      p'.config.lastErrorTime = none ∧
      p'.config.usageCount = (if false then 0 else exDirty.usageCount) :=
  ⟨by decide,
   markHealthy_resets_state exPoolDirty "A" "d1" { config := exDirty, uuid := "d1" } false (by decide)⟩

/-- C8: every mutator called with a missing identity, an unknown provider
type, or an unknown uuid is a no-op — `_findProvider` comes back empty and the
state (every record of every pool, and the cursors) is returned unchanged;
being total functions, the embedded mutators cannot throw. -/
theorem mutators_unknown_noop
    (st : PoolState) (t : String) (uuidOpt : Option String) (now : String) (b : Bool)
    (h : ∀ u, uuidOpt = some u → findProvider st t u = none) :
    markProviderUnhealthy st t uuidOpt now = st ∧
    markProviderHealthy st t uuidOpt b = st ∧
    resetProviderCounters st t uuidOpt = st ∧
    disableProvider st t uuidOpt = st ∧
    enableProvider st t uuidOpt = st := by
  rcases uuidOpt with _ | u
  · exact ⟨rfl, rfl, rfl, rfl, rfl⟩
  · have hf := h u rfl
    by_cases hu : u = ""
    · refine ⟨?_, ?_, ?_, ?_, ?_⟩ <;>
        simp [markProviderUnhealthy, markProviderHealthy, resetProviderCounters,
          disableProvider, enableProvider, hu]
    · refine ⟨?_, ?_, ?_, ?_, ?_⟩ <;>
        simp [markProviderUnhealthy, markProviderHealthy, resetProviderCounters,
          disableProvider, enableProvider, hu, hf]

/-- Witness for C8: mutating an unknown provider type leaves the three-record
pool state intact. -/
theorem mutators_unknown_noop_witness :
    markProviderUnhealthy exPool "unknown" (some "zz") "2024-06-01T00:00:00.000Z" = exPool ∧
    markProviderHealthy exPool "unknown" (some "zz") false = exPool ∧
    resetProviderCounters exPool "unknown" (some "zz") = exPool ∧
    disableProvider exPool "unknown" (some "zz") = exPool ∧
    enableProvider exPool "unknown" (some "zz") = exPool :=
  mutators_unknown_noop exPool "unknown" (some "zz") "2024-06-01T00:00:00.000Z" false
    (by intro u hu; injection hu with hu; subst hu; decide)

/-! ## Round-robin selection lemmas -/

theorem set_getD_self {α : Type} (l : List α) (i : Nat) (d : α) (h : i < l.length) :
    l.set i (l.getD i d) = l := by
  apply List.ext_getElem (by simp)
  intro n h1 h2
  rw [List.getElem_set]
  split
  · rename_i he
    subst he
    rw [List.getD_eq_getElem _ _ h]
  · rfl

/-- A throwaway pool entry used only as a `getD` default. -/
def defaultStatus : ProviderStatus :=
  { config :=
      { uuid := "", isHealthy := false, isDisabled := false, lastUsed := none,
        usageCount := 0, errorCount := 0, lastErrorTime := none, checkHealth := false,
        checkModelName := none, notSupportedModels := .absent },
    uuid := "" }

theorem selectRun_all_healthy :
    ∀ (n : Nat) (st : PoolState) (t now : String) (qs : List ProviderStatus)
      (us : List String) (c : Nat),
      t ≠ "" →
      alookup st.providerStatus t = some qs →
      qs ≠ [] →
      (∀ p ∈ qs, p.config.isHealthy = true ∧ p.config.isDisabled = false) →
      qs.map (fun p => p.config.uuid) = us →
      (alookup st.roundRobinIndex t).getD 0 = c →
      (selectRun st t now n).map (Option.map ProviderConfig.uuid) =
        (List.range n).map (fun k => some (us.getD ((c + k) % us.length) "")) := by
  intro n
  induction n with
  | zero => intro st t now qs us c _ _ _ _ _ _; rfl
  | succ n ih =>
      intro st t now qs us c ht hq hne hflags hus hc
      have hN : 0 < qs.length := List.length_pos.mpr hne
      have husN : us.length = qs.length := by rw [← hus, List.length_map]
      have hmod : c % qs.length < qs.length := Nat.mod_lt _ hN
      have hsel := selectProvider_all_healthy st t now qs defaultStatus ht hq hne hflags
      rw [hc] at hsel
      -- the record selected by the first call
      set sel := qs.getD (c % qs.length) defaultStatus with hseldef
      have hselmem : sel ∈ qs := by
        rw [hseldef, List.getD_eq_getElem _ _ hmod]
        exact List.getElem_mem hmod
      have hseluuid : sel.config.uuid = us.getD ((c + 0) % us.length) "" := by
        rw [Nat.add_zero, husN, ← hus, List.getD_eq_getElem _ _ (by simpa using hmod)]
        simp only [List.getElem_map]
        rw [hseldef, List.getD_eq_getElem _ _ hmod]
      have hrun : selectRun st t now (n + 1) =
          (selectProvider st t none now).1 :: selectRun (selectProvider st t none now).2 t now n := rfl
      rw [hrun, hsel]
      simp only [List.map_cons, Option.map_some']
      rw [List.range_succ_eq_map, List.map_cons]
      congr 1
      · exact congrArg some hseluuid
      · set sel2 : ProviderStatus := { config := bumpUsage now sel.config, uuid := sel.uuid } with hsel2
        set qs2 := qs.set (c % qs.length) sel2 with hqs2
        have hlen2 : qs2.length = qs.length := List.length_set qs _ _
        have hne2 : qs2 ≠ [] := List.ne_nil_of_length_pos (by rw [hlen2]; exact hN)
        have hflags2 : ∀ p ∈ qs2, p.config.isHealthy = true ∧ p.config.isDisabled = false := by
          intro p hp
          rcases List.mem_or_eq_of_mem_set hp with h | rfl
          · exact hflags p h
          · exact hflags sel hselmem
        have hus2 : qs2.map (fun p => p.config.uuid) = us := by
          rw [hqs2, List.map_set]
          have hval : sel2.config.uuid =
              (qs.map fun p => p.config.uuid).getD (c % qs.length) "" := by
            rw [List.getD_eq_getElem _ _ (by simpa using hmod)]
            simp only [List.getElem_map]
            show sel.config.uuid = _
            rw [hseldef, List.getD_eq_getElem _ _ hmod]
          rw [hval, set_getD_self _ _ _ (by simpa using hmod)]
          exact hus
        have htail := ih
          { providerStatus := aset st.providerStatus t qs2,
            roundRobinIndex := aset st.roundRobinIndex t ((c + 1) % qs.length),
            maxErrorCount := st.maxErrorCount,
            healthCheckInterval := st.healthCheckInterval }
          t now qs2 us ((c + 1) % qs.length) ht
          (alookup_aset_self st.providerStatus t qs2) hne2 hflags2 hus2
          (by rw [alookup_aset_self]; rfl)
        rw [List.map_map, htail]
        apply List.map_congr_left
        intro k hk
        have harg : ((c + 1) % qs.length + k) % us.length = (c + Nat.succ k) % us.length := by
          rw [husN, Nat.mod_add_mod]
          congr 1
          omega
        simp only [harg]
        rfl

theorem rotate_getD_form (us : List String) (c : Nat) (h : us ≠ []) :
    (us.rotate (c % us.length)).map some =
      (List.range us.length).map (fun k => some (us.getD ((c + k) % us.length) "")) := by
  have hN : 0 < us.length := List.length_pos.mpr h
  apply List.ext_getElem
  · simp
  intro k h1 h2
  simp only [List.getElem_map, List.getElem_range, List.getElem_rotate]
  have hidx : (k + c % us.length) % us.length = (c + k) % us.length := by
    conv_lhs => rw [Nat.add_comm]
    rw [Nat.mod_add_mod]
  simp only [hidx]
  rw [List.getD_eq_getElem _ _ (Nat.mod_lt _ hN)]

theorem selectProvider_round_robin (st : PoolState) (t now : String) (qs : List ProviderStatus)
    (ht : t ≠ "") (hq : alookup st.providerStatus t = some qs) (hne : qs ≠ [])
    (hflags : ∀ p ∈ qs, p.config.isHealthy = true ∧ p.config.isDisabled = false) :
    (selectRun st t now qs.length).map (Option.map ProviderConfig.uuid) =
      ((qs.map (fun p => p.config.uuid)).rotate
        (((alookup st.roundRobinIndex t).getD 0) % qs.length)).map some := by
  have hus : qs.map (fun p => p.config.uuid) ≠ [] := by simpa using hne
  have h1 := selectRun_all_healthy qs.length st t now qs (qs.map fun p => p.config.uuid)
      ((alookup st.roundRobinIndex t).getD 0) ht hq hne hflags rfl rfl
  rw [h1]
  conv_rhs => rw [show qs.length = (qs.map (fun p => p.config.uuid)).length by simp]
  rw [rotate_getD_form (qs.map fun p => p.config.uuid) ((alookup st.roundRobinIndex t).getD 0) hus]
  simp [List.length_map]

/-- C3: on a pool whose records are all healthy and enabled, `qs.length`
sequential `selectProvider` calls with no requested model return every record
exactly once, in insertion order starting from the record at the current
rotation-cursor position (the stored cursor taken modulo the pool length):
the selected uuid sequence is exactly the pool's uuid list rotated to the
cursor. -/
theorem selectProvider_round_robin_fair (st : PoolState) (t now : String)
    (qs : List ProviderStatus)
    (ht : t ≠ "") (hq : alookup st.providerStatus t = some qs) (hne : qs ≠ [])
    (hflags : ∀ p ∈ qs, p.config.isHealthy = true ∧ p.config.isDisabled = false) :
    (selectRun st t now qs.length).map (Option.map ProviderConfig.uuid) =
      ((qs.map (fun p => p.config.uuid)).rotate
        (((alookup st.roundRobinIndex t).getD 0) % qs.length)).map some :=
  selectProvider_round_robin st t now qs ht hq hne hflags

/-- Witness for C3: three calls on the three-record pool with cursor 1 yield
`a2, a3, a1` — each record once, in insertion order from the cursor. -/
theorem selectProvider_round_robin_fair_witness :
    (∀ p ∈ [exStatus "a1", exStatus "a2", exStatus "a3"],
        p.config.isHealthy = true ∧ p.config.isDisabled = false) ∧
    (selectRun exPool "A" "2024-06-01T00:00:00.000Z" 3).map (Option.map ProviderConfig.uuid) =
      ((([exStatus "a1", exStatus "a2", exStatus "a3"].map (fun p => p.config.uuid)).rotate
        (((alookup exPool.roundRobinIndex "A").getD 0) % 3)).map some) :=
  ⟨by decide,
   selectProvider_round_robin_fair exPool "A" "2024-06-01T00:00:00.000Z"
     [exStatus "a1", exStatus "a2", exStatus "a3"]
     (by decide) (by decide) (by decide) (by decide)⟩

/-! ## Eligibility and selection-safety lemmas -/

theorem selectProvider_fst_none_iff (st : PoolState) (t : String) (m : Option String) (now : String)
    (ht : t ≠ "") :
    (selectProvider st t m now).1 = none ↔ eligibleRecords st t (normModel m) = [] := by
  rcases hm : normModel m with _ | m'
  · simp only [selectProvider, if_neg ht, hm, eligibleRecords]
    cases hh : healthyEnabled ((alookup st.providerStatus t).getD []) with
    | nil => simp [hh]
    | cons e0 rest => simp [hh]
  · simp only [selectProvider, if_neg ht, hm, eligibleRecords]
    cases hmf : modelFilter (healthyEnabled ((alookup st.providerStatus t).getD [])) m' with
    | nil => simp [hmf]
    | cons e0 rest => simp [hmf]

theorem selectProvider_some_of_eligible (st : PoolState) (t : String) (m : Option String) (now : String)
    (ht : t ≠ "") (he : eligibleRecords st t (normModel m) ≠ []) :
    ∃ ip, ip ∈ eligibleRecords st t (normModel m) ∧
      (selectProvider st t m now).1 = some (bumpUsage now ip.2.config) := by
  rcases hm : normModel m with _ | m'
  · rw [hm] at he
    simp only [eligibleRecords] at he ⊢
    cases hh : healthyEnabled ((alookup st.providerStatus t).getD []) with
    | nil => rw [hh] at he; exact absurd rfl he
    | cons e0 rest =>
        have hmod : ((alookup st.roundRobinIndex t).getD 0) % (e0 :: rest).length < (e0 :: rest).length :=
          Nat.mod_lt _ (by simp)
        refine ⟨(e0 :: rest).getD (((alookup st.roundRobinIndex t).getD 0) % (e0 :: rest).length) e0, ?_, ?_⟩
        · rw [List.getD_eq_getElem _ _ hmod]
          exact List.getElem_mem hmod
        · simp only [selectProvider, if_neg ht, hm, hh]
  · rw [hm] at he
    simp only [eligibleRecords] at he ⊢
    cases hmf : modelFilter (healthyEnabled ((alookup st.providerStatus t).getD [])) m' with
    | nil => rw [hmf] at he; exact absurd rfl he
    | cons e0 rest =>
        have hmod : ((alookup st.roundRobinIndex (t ++ ":" ++ m')).getD 0) % (e0 :: rest).length <
            (e0 :: rest).length := Nat.mod_lt _ (by simp)
        refine ⟨(e0 :: rest).getD
            (((alookup st.roundRobinIndex (t ++ ":" ++ m')).getD 0) % (e0 :: rest).length) e0, ?_, ?_⟩
        · rw [List.getD_eq_getElem _ _ hmod]
          exact List.getElem_mem hmod
        · simp only [selectProvider, if_neg ht, hm, hmf]
          simp

theorem mem_eligibleRecords_iff (st : PoolState) (t : String) (i : Nat) (p : ProviderStatus)
    (mm : Option String) :
    (i, p) ∈ eligibleRecords st t mm ↔
      ((alookup st.providerStatus t).getD []).get? i = some p ∧
      p.config.isHealthy = true ∧ p.config.isDisabled = false ∧
      (∀ m', mm = some m' → supportsModelB p.config.notSupportedModels m' = true) := by
  cases mm with
  | none =>
      simp only [eligibleRecords, healthyEnabled, List.mem_filter, mem_withIdx_zero]
      constructor
      · rintro ⟨h1, h2⟩
        simp only [Bool.and_eq_true, Bool.not_eq_true'] at h2
        exact ⟨h1, h2.1, h2.2, by rintro m' ⟨⟩⟩
      · rintro ⟨h1, h2, h3, _⟩
        exact ⟨h1, by simp [h2, h3]⟩
  | some m' =>
      simp only [eligibleRecords, modelFilter, healthyEnabled, List.mem_filter, mem_withIdx_zero]
      constructor
      · rintro ⟨⟨h1, h2⟩, h4⟩
        simp only [Bool.and_eq_true, Bool.not_eq_true'] at h2
        exact ⟨h1, h2.1, h2.2, by rintro m'' ⟨⟩; exact h4⟩
      · rintro ⟨h1, h2, h3, h4⟩
        exact ⟨⟨h1, by simp [h2, h3]⟩, h4 m' rfl⟩

theorem selectProvider_none_iff_empty_and_fallback
    (st : PoolState) (t : String) (m : Option String) (now : String) (keys : List String)
    (ht : t ≠ "") :
    ((selectProvider st t m now).1 = none ↔ eligibleRecords st t (normModel m) = []) ∧
    ((selectProvider st t m now).1 = none →
      (getApiService (some st) keys t m now).1 = ServiceSource.base) := by
  refine ⟨selectProvider_fst_none_iff st t m now ht, ?_⟩
  intro hnone
  simp only [getApiService]
  by_cases hk : t ∈ keys
  · rw [if_pos hk]
    rcases hsel : selectProvider st t m now with ⟨r, st2⟩
    rw [hsel] at hnone
    simp only at hnone
    subst hnone
    rfl
  · rw [if_neg hk]

theorem notSupportedModels_excludes
    (st : PoolState) (t m1 m2 now : String) (i : Nat) (p : ProviderStatus) (l : List String)
    (ht : t ≠ "") (hm1 : m1 ≠ "")
    (hnsm : p.config.notSupportedModels = .arr l) (hml : m1 ∈ l)
    (hp : ((alookup st.providerStatus t).getD []).get? i = some p)
    (hh : p.config.isHealthy = true) (hd : p.config.isDisabled = false) :
    ((i, p) ∉ eligibleRecords st t (some m1)) ∧
    (∀ c, (selectProvider st t (some m1) now).1 = some c →
        supportsModelB c.notSupportedModels m1 = true ∧ c ≠ bumpUsage now p.config) ∧
    (m2 ≠ "" → m2 ∉ l → (i, p) ∈ eligibleRecords st t (some m2)) ∧
    ((i, p) ∈ eligibleRecords st t none) := by
  have hpsupp : supportsModelB p.config.notSupportedModels m1 = false := by
    simp [hnsm, supportsModelB, hml]
  have hnorm : normModel (some m1) = some m1 := by simp [normModel, hm1]
  refine ⟨?_, ?_, ?_, ?_⟩
  · intro hmem
    have := ((mem_eligibleRecords_iff st t i p (some m1)).mp hmem).2.2.2 m1 rfl
    rw [hpsupp] at this
    exact Bool.noConfusion this
  · intro c hc
    have hnon : eligibleRecords st t (normModel (some m1)) ≠ [] := by
      intro hempty
      have := (selectProvider_fst_none_iff st t (some m1) now ht).mpr hempty
      rw [hc] at this
      exact Option.noConfusion this
    obtain ⟨ip, hipmem, hipsel⟩ := selectProvider_some_of_eligible st t (some m1) now ht hnon
    rw [hnorm] at hipmem
    rw [hc] at hipsel
    have hceq : c = bumpUsage now ip.2.config := by
      exact Option.some.inj hipsel
    have hipsupp : supportsModelB ip.2.config.notSupportedModels m1 = true :=
      ((mem_eligibleRecords_iff st t ip.1 ip.2 (some m1)).mp (by simpa using hipmem)).2.2.2 m1 rfl
    have hcsupp : supportsModelB c.notSupportedModels m1 = true := by
      rw [hceq]
      exact hipsupp
    refine ⟨hcsupp, ?_⟩
    intro hbad
    have : c.notSupportedModels = p.config.notSupportedModels := by
      rw [hbad]
      rfl
    rw [this, hpsupp] at hcsupp
    exact Bool.noConfusion hcsupp
  · intro hm2 hm2l
    refine (mem_eligibleRecords_iff st t i p (some m2)).mpr ⟨hp, hh, hd, ?_⟩
    rintro m' ⟨⟩
    simp [hnsm, supportsModelB, hm2l]
  · exact (mem_eligibleRecords_iff st t i p none).mpr ⟨hp, hh, hd, by rintro m' ⟨⟩⟩

theorem missing_notSupportedModels_supports_all
    (st : PoolState) (t m : String) (hm : m ≠ "") :
    (∀ i p, ((alookup st.providerStatus t).getD []).get? i = some p →
        p.config.isHealthy = true → p.config.isDisabled = false →
        (p.config.notSupportedModels = .absent ∨ p.config.notSupportedModels = .nonArray) →
        (i, p) ∈ eligibleRecords st t (normModel (some m))) ∧
    (∀ i p, (i, p) ∈ eligibleRecords st t none →
        (i, p) ∉ eligibleRecords st t (normModel (some m)) →
        ∃ l, p.config.notSupportedModels = .arr l ∧ l.contains m = true) := by
  have hnorm : normModel (some m) = some m := by simp [normModel, hm]
  rw [hnorm]
  constructor
  · intro i p hp hh hd hn
    refine (mem_eligibleRecords_iff st t i p (some m)).mpr ⟨hp, hh, hd, ?_⟩
    rintro m' ⟨⟩
    rcases hn with h | h <;> simp [h, supportsModelB]
  · intro i p hmem hnot
    obtain ⟨hp, hh, hd, _⟩ := (mem_eligibleRecords_iff st t i p none).mp hmem
    by_contra hno
    push_neg at hno
    apply hnot
    refine (mem_eligibleRecords_iff st t i p (some m)).mpr ⟨hp, hh, hd, ?_⟩
    rintro m' ⟨⟩
    cases hcase : p.config.notSupportedModels with
    | absent => simp [supportsModelB]
    | nonArray => simp [supportsModelB]
    | arr l =>
        have := hno l hcase
        simp [supportsModelB]
        intro hmml
        exact absurd (by simpa using hmml) (by simpa using this)

/-- More fixtures for the selection witnesses. -/
def exPoolStale : PoolState :=
  { providerStatus := [("A",
      [{ config := { exConfig "b1" with isDisabled := true }, uuid := "b1" },
       exStatus "b2"])],
    roundRobinIndex := [("A", 5)],
    maxErrorCount := 3, healthCheckInterval := 600000 }

/-- A state whose pool for type `"B"` exists but is empty. -/
def exPoolEmptyB : PoolState :=
  { providerStatus := [("B", [])],
    roundRobinIndex := [],
    maxErrorCount := 3, healthCheckInterval := 600000 }

/-- A pool with one record that declares `notSupportedModels = ["m1"]`. -/
def exPoolM : PoolState :=
  { providerStatus := [("A",
      [{ config := { exConfig "c1" with notSupportedModels := .arr ["m1"] }, uuid := "c1" }])],
    roundRobinIndex := [],
    maxErrorCount := 3, healthCheckInterval := 600000 }

/-- C4: whenever at least one record is eligible (healthy, not disabled, not
excluded for the requested model) and whatever rotation-cursor value is
stored — including a stale cursor left over from a larger eligible set, since
the index is re-derived modulo the current eligible length — `selectProvider`
returns some eligible record: never `none`, and the access is always
in range (the selected pair is a member of the eligible list). -/
theorem selectProvider_returns_eligible
    (st : PoolState) (t : String) (m : Option String) (now : String)
    (ht : t ≠ "") (he : eligibleRecords st t (normModel m) ≠ []) :
    ∃ ip, ip ∈ eligibleRecords st t (normModel m) ∧
      (selectProvider st t m now).1 = some (bumpUsage now ip.2.config) :=
  selectProvider_some_of_eligible st t m now ht he

/-- Witness for C4: with a stale cursor of 5 over a 2-record pool whose first
record is disabled, selection still returns the eligible record. -/
theorem selectProvider_returns_eligible_witness :
    eligibleRecords exPoolStale "A" (normModel none) ≠ [] ∧
    ∃ ip, ip ∈ eligibleRecords exPoolStale "A" (normModel none) ∧
      (selectProvider exPoolStale "A" none "2024-06-01T00:00:00.000Z").1 =
        some (bumpUsage "2024-06-01T00:00:00.000Z" ip.2.config) :=
  ⟨by decide,
   selectProvider_returns_eligible exPoolStale "A" none "2024-06-01T00:00:00.000Z"
     (by decide) (by decide)⟩

/-- C5: `selectProvider` returns `none` exactly when the eligible set is empty
(unknown or empty pools included) — the embedding is a total function, so no
error is raised — and in that case `getApiService` falls back to building a
service from the base configuration (`ServiceSource.base`) instead of
rejecting the request. -/
theorem selectProvider_none_iff_and_fallback
    (st : PoolState) (t : String) (m : Option String) (now : String) (keys : List String)
    (ht : t ≠ "") :
    ((selectProvider st t m now).1 = none ↔ eligibleRecords st t (normModel m) = []) ∧
    ((selectProvider st t m now).1 = none →
      (getApiService (some st) keys t m now).1 = ServiceSource.base) :=
  selectProvider_none_iff_empty_and_fallback st t m now keys ht

/-- Witness for C5: selecting from the empty pool `"B"` yields `none` and the
service resolves from the base configuration. -/
theorem selectProvider_none_iff_and_fallback_witness :
    ("B" : String) ≠ "" ∧
    (((selectProvider exPoolEmptyB "B" none "2024-06-01T00:00:00.000Z").1 = none ↔
        eligibleRecords exPoolEmptyB "B" (normModel none) = []) ∧
      ((selectProvider exPoolEmptyB "B" none "2024-06-01T00:00:00.000Z").1 = none →
        (getApiService (some exPoolEmptyB) ["B"] "B" none "2024-06-01T00:00:00.000Z").1 =
          ServiceSource.base)) :=
  ⟨by decide,
   selectProvider_none_iff_and_fallback exPoolEmptyB "B" none "2024-06-01T00:00:00.000Z" ["B"]
     (by decide)⟩

/-- C7: a record whose `notSupportedModels` array contains `m1` is never in
the eligible set for `m1` and is never the record `selectProvider (t, m1)`
returns (any returned config still supports `m1`), while the same record —
healthy and enabled — remains eligible for a model `m2` outside the array and
for selection with no requested model. -/
theorem notSupportedModels_excludes_only_listed
    (st : PoolState) (t m1 m2 now : String) (i : Nat) (p : ProviderStatus) (l : List String)
    (ht : t ≠ "") (hm1 : m1 ≠ "")
    (hnsm : p.config.notSupportedModels = .arr l) (hml : m1 ∈ l)
    (hp : ((alookup st.providerStatus t).getD []).get? i = some p)
    (hh : p.config.isHealthy = true) (hd : p.config.isDisabled = false) :
    ((i, p) ∉ eligibleRecords st t (some m1)) ∧
    (∀ c, (selectProvider st t (some m1) now).1 = some c →
        supportsModelB c.notSupportedModels m1 = true ∧ c ≠ bumpUsage now p.config) ∧
    (m2 ≠ "" → m2 ∉ l → (i, p) ∈ eligibleRecords st t (some m2)) ∧
    ((i, p) ∈ eligibleRecords st t none) :=
  notSupportedModels_excludes st t m1 m2 now i p l ht hm1 hnsm hml hp hh hd

/-- Witness for C7: the record declaring `notSupportedModels = ["m1"]` is
excluded for `"m1"` but eligible for `"m2"` and for no-model selection. -/
theorem notSupportedModels_excludes_only_listed_witness :
    ("m1" : String) ∈ ["m1"] ∧
    (((0, { config := { exConfig "c1" with notSupportedModels := .arr ["m1"] }, uuid := "c1" })
        ∉ eligibleRecords exPoolM "A" (some "m1")) ∧
     (∀ c, (selectProvider exPoolM "A" (some "m1") "2024-06-01T00:00:00.000Z").1 = some c →
        supportsModelB c.notSupportedModels "m1" = true ∧
        c ≠ bumpUsage "2024-06-01T00:00:00.000Z"
          { exConfig "c1" with notSupportedModels := .arr ["m1"] }) ∧
     (("m2" : String) ≠ "" → ("m2" : String) ∉ ["m1"] →
        (0, { config := { exConfig "c1" with notSupportedModels := .arr ["m1"] }, uuid := "c1" })
          ∈ eligibleRecords exPoolM "A" (some "m2")) ∧
     ((0, { config := { exConfig "c1" with notSupportedModels := .arr ["m1"] }, uuid := "c1" })
        ∈ eligibleRecords exPoolM "A" none)) :=
  ⟨by decide,
   notSupportedModels_excludes_only_listed exPoolM "A" "m1" "m2" "2024-06-01T00:00:00.000Z" 0
     { config := { exConfig "c1" with notSupportedModels := .arr ["m1"] }, uuid := "c1" }
     ["m1"] (by decide) (by decide) (by decide) (by decide) (by decide) (by decide) (by decide)⟩

/-- C10: in the eligible set `selectProvider` uses for a requested model `m`,
a healthy enabled record whose `notSupportedModels` is absent or not an array
is always kept (treated as supporting every model); conversely, a record that
is in the healthy set but dropped by the model filter necessarily carries an
actual array containing `m`. -/
theorem nonArray_notSupportedModels_supports_all
    (st : PoolState) (t m : String) (hm : m ≠ "") :
    (∀ i p, ((alookup st.providerStatus t).getD []).get? i = some p →
        p.config.isHealthy = true → p.config.isDisabled = false →
        (p.config.notSupportedModels = .absent ∨ p.config.notSupportedModels = .nonArray) →
        (i, p) ∈ eligibleRecords st t (normModel (some m))) ∧
    (∀ i p, (i, p) ∈ eligibleRecords st t none →
        (i, p) ∉ eligibleRecords st t (normModel (some m)) →
        ∃ l, p.config.notSupportedModels = .arr l ∧ l.contains m = true) :=
  missing_notSupportedModels_supports_all st t m hm

/-- Witness for C10: the defaulted records (absent `notSupportedModels`) stay
eligible for model `"m1"`. -/
theorem nonArray_notSupportedModels_supports_all_witness :
    ("m1" : String) ≠ "" ∧
    ((∀ i p, ((alookup exPool.providerStatus "A").getD []).get? i = some p →
        p.config.isHealthy = true → p.config.isDisabled = false →
        (p.config.notSupportedModels = .absent ∨ p.config.notSupportedModels = .nonArray) →
        (i, p) ∈ eligibleRecords exPool "A" (normModel (some "m1"))) ∧
     (∀ i p, (i, p) ∈ eligibleRecords exPool "A" none →
        (i, p) ∉ eligibleRecords exPool "A" (normModel (some "m1")) →
        ∃ l, p.config.notSupportedModels = .arr l ∧ l.contains "m1" = true)) :=
  ⟨by decide, nonArray_notSupportedModels_supports_all exPool "A" "m1" (by decide)⟩

/-- C9: `_flushPendingSaves` clears the pending-save set and the timer handle
before attempting the disk write, so when the write fails (for any read
outcome) the pending set is empty and the timer is unset afterwards — the
round's provider types will not be retried until a later mutation re-schedules
them — and the on-disk document is unchanged.  The embedded function is total:
both the non-`ENOENT` read error and the write error are swallowed by the
catch, never propagated to the caller that triggered the mutation. -/
theorem flushPendingSaves_clears_before_write
    (cs : CoalescerState) (st : PoolState) (disk : List (String × List ProviderConfig))
    (readRes : ReadResult)
    (hpending : cs.pendingSaves ≠ []) :
    (flushPendingSaves cs st disk readRes false).1.pendingSaves = [] ∧
    (flushPendingSaves cs st disk readRes false).1.saveTimerSet = false ∧
    (flushPendingSaves cs st disk readRes false).2 = disk := by
  have hne : cs.pendingSaves.isEmpty = false := by
    cases h : cs.pendingSaves with
    | nil => exact absurd h hpending
    | cons a l => rfl
  simp only [flushPendingSaves, hne]
  cases readRes <;> simp

/-- Witness for C9: a failed write after scheduling `"A"` leaves an empty
pending set, no timer, and the old disk document. -/
theorem flushPendingSaves_clears_before_write_witness :
    (CoalescerState.mk ["A"] true).pendingSaves ≠ [] ∧
    ((flushPendingSaves ⟨["A"], true⟩ exPool [] .enoent false).1.pendingSaves = [] ∧
     (flushPendingSaves ⟨["A"], true⟩ exPool [] .enoent false).1.saveTimerSet = false ∧
     (flushPendingSaves ⟨["A"], true⟩ exPool [] .enoent false).2 = []) :=
  ⟨by decide, flushPendingSaves_clears_before_write ⟨["A"], true⟩ exPool [] .enoent (by decide)⟩

/-! ## Health-sweep frame lemmas (C1) -/

theorem healthyStep_uuid (b : Bool) (c : ProviderConfig) : (healthyStep b c).uuid = c.uuid := by
  cases b <;> rfl

theorem unhealthyStep_uuid (m : Nat) (now : String) (c : ProviderConfig) :
    (unhealthyStep m now c).uuid = c.uuid := by
  simp only [unhealthyStep]
  split <;> rfl

theorem markProviderHealthy_eq_or (s : PoolState) (t u : String) (b : Bool) :
    markProviderHealthy s t (some u) b = s ∨
    markProviderHealthy s t (some u) b = modifyProvider s t u (healthyStep b) := by
  by_cases hu : u = ""
  · left; simp [markProviderHealthy, hu]
  · cases hf : findProvider s t u with
    | none => left; simp [markProviderHealthy, hu, hf]
    | some p => right; simp [markProviderHealthy, hu, hf]

theorem markProviderUnhealthy_eq_or (s : PoolState) (t u now : String) :
    markProviderUnhealthy s t (some u) now = s ∨
    markProviderUnhealthy s t (some u) now =
      modifyProvider s t u (unhealthyStep s.maxErrorCount now) := by
  by_cases hu : u = ""
  · left; simp [markProviderUnhealthy, hu]
  · cases hf : findProvider s t u with
    | none => left; simp [markProviderUnhealthy, hu, hf]
    | some p => right; simp [markProviderUnhealthy, hu, hf]

theorem resetProviderCounters_eq_or (s : PoolState) (t u : String) :
    resetProviderCounters s t (some u) = s ∨
    resetProviderCounters s t (some u) =
      modifyProvider s t u (fun c => { c with errorCount := 0, usageCount := 0 }) := by
  by_cases hu : u = ""
  · left; simp [resetProviderCounters, hu]
  · cases hf : findProvider s t u with
    | none => left; simp [resetProviderCounters, hu, hf]
    | some p => right; simp [resetProviderCounters, hu, hf]

/-- Invariant tracked through the health sweep for the amended C1: the pool at
`t0` keeps its per-position top-level and config uuids, and the record at
position `i0` keeps its `isHealthy`, `lastErrorTime` and its disabled check. -/
def c1Inv (t0 : String) (i0 : Nat) (pool0 : List ProviderStatus) (r0 : ProviderStatus)
    (s : PoolState) : Prop :=
  ∃ pool, alookup s.providerStatus t0 = some pool ∧
    (∀ j, (pool.get? j).map ProviderStatus.uuid = (pool0.get? j).map ProviderStatus.uuid) ∧
    (∀ j, (pool.get? j).map (fun q => q.config.uuid) =
      (pool0.get? j).map (fun q => q.config.uuid)) ∧
    (∃ r, pool.get? i0 = some r ∧ r.uuid = r0.uuid ∧
      r.config.isHealthy = r0.config.isHealthy ∧
      r.config.lastErrorTime = r0.config.lastErrorTime ∧
      r.config.checkHealth = false)

theorem c1Inv_modify_preserving {t0 : String} {i0 : Nat} {pool0 : List ProviderStatus}
    {r0 : ProviderStatus} {s : PoolState} (t u : String) (f : ProviderConfig → ProviderConfig)
    (hinv : c1Inv t0 i0 pool0 r0 s)
    (hf : ∀ c, (f c).uuid = c.uuid ∧ (f c).isHealthy = c.isHealthy ∧
      (f c).lastErrorTime = c.lastErrorTime ∧ (f c).checkHealth = c.checkHealth) :
    c1Inv t0 i0 pool0 r0 (modifyProvider s t u f) := by
  obtain ⟨pool, halook, hstat, hconf, r, hri, hru, hrh, hrl, hrc⟩ := hinv
  by_cases ht : t = t0
  · subst ht
    refine ⟨updateFirst pool u f, ?_, ?_, ?_, ?_⟩
    · show alookup (amodify s.providerStatus t (fun pool => updateFirst pool u f)) t = _
      rw [alookup_amodify_self, halook]
      rfl
    · intro j
      rcases updateFirst_get?_cases pool u f j with hc | ⟨q, hq, _, hq'⟩
      · rw [hc]; exact hstat j
      · rw [hq']
        have := hstat j
        rw [hq] at this
        simpa using this
    · intro j
      rcases updateFirst_get?_cases pool u f j with hc | ⟨q, hq, _, hq'⟩
      · rw [hc]; exact hconf j
      · rw [hq']
        have := hconf j
        rw [hq] at this
        simp only [Option.map_some'] at this ⊢
        rw [← this]
        exact congrArg some (hf q.config).1
    · rcases updateFirst_get?_cases pool u f i0 with hc | ⟨q, hq, _, hq'⟩
      · exact ⟨r, by rw [hc]; exact hri, hru, hrh, hrl, hrc⟩
      · rw [hri] at hq
        cases hq
        refine ⟨{ r with config := f r.config }, hq', hru, ?_, ?_, ?_⟩
        · rw [(hf r.config).2.1]; exact hrh
        · rw [(hf r.config).2.2.1]; exact hrl
        · rw [(hf r.config).2.2.2]; exact hrc
  · obtain ⟨pool2, halook2, h2, h3, h4⟩ := (⟨pool, halook, hstat, hconf, r, hri, hru, hrh, hrl, hrc⟩ :
      c1Inv t0 i0 pool0 r0 s)
    refine ⟨pool2, ?_, h2, h3, h4⟩
    show alookup (amodify s.providerStatus t (fun pool => updateFirst pool u f)) t0 = _
    rw [alookup_amodify_ne _ _ _ _ (fun he => ht he.symm)]
    exact halook2

theorem c1Inv_modify_other {t0 : String} {i0 : Nat} {pool0 : List ProviderStatus}
    {r0 : ProviderStatus} {s : PoolState} (t u : String) (f : ProviderConfig → ProviderConfig)
    (hinv : c1Inv t0 i0 pool0 r0 s)
    (hfu : ∀ c, (f c).uuid = c.uuid)
    (hu : t = t0 → u ≠ r0.uuid) :
    c1Inv t0 i0 pool0 r0 (modifyProvider s t u f) := by
  obtain ⟨pool, halook, hstat, hconf, r, hri, hru, hrh, hrl, hrc⟩ := hinv
  by_cases ht : t = t0
  · subst ht
    refine ⟨updateFirst pool u f, ?_, ?_, ?_, ?_⟩
    · show alookup (amodify s.providerStatus t (fun pool => updateFirst pool u f)) t = _
      rw [alookup_amodify_self, halook]
      rfl
    · intro j
      rcases updateFirst_get?_cases pool u f j with hc | ⟨q, hq, _, hq'⟩
      · rw [hc]; exact hstat j
      · rw [hq']
        have := hstat j
        rw [hq] at this
        simpa using this
    · intro j
      rcases updateFirst_get?_cases pool u f j with hc | ⟨q, hq, _, hq'⟩
      · rw [hc]; exact hconf j
      · rw [hq']
        have := hconf j
        rw [hq] at this
        simp only [Option.map_some'] at this ⊢
        rw [← this]
        exact congrArg some (hfu q.config)
    · refine ⟨r, ?_, hru, hrh, hrl, hrc⟩
      apply updateFirst_get?_ne hri
      rw [hru]
      exact Ne.symm (hu rfl)
  · obtain ⟨pool2, halook2, h2, h3, h4⟩ := (⟨pool, halook, hstat, hconf, r, hri, hru, hrh, hrl, hrc⟩ :
      c1Inv t0 i0 pool0 r0 s)
    refine ⟨pool2, ?_, h2, h3, h4⟩
    show alookup (amodify s.providerStatus t (fun pool => updateFirst pool u f)) t0 = _
    rw [alookup_amodify_ne _ _ _ _ (fun he => ht he.symm)]
    exact halook2

/-- Positional form of uuid uniqueness: distinct positions of a Nodup-uuid
pool carry distinct top-level uuids. -/
theorem nodup_uuid_get?_ne {pool0 : List ProviderStatus}
    (hnodup : (pool0.map ProviderStatus.uuid).Nodup)
    {i j : Nat} {p q : ProviderStatus}
    (hi : pool0.get? i = some p) (hj : pool0.get? j = some q) (hne : i ≠ j) :
    p.uuid ≠ q.uuid := by
  have hi' : i < pool0.length := by
    by_contra hc
    rw [List.get?_eq_none.mpr (by omega)] at hi
    exact Option.noConfusion hi
  have hj' : j < pool0.length := by
    by_contra hc
    rw [List.get?_eq_none.mpr (by omega)] at hj
    exact Option.noConfusion hj
  have hip : p = pool0[i] := by
    rw [List.get?_eq_get hi'] at hi
    exact (Option.some.inj hi).symm
  have hjq : q = pool0[j] := by
    rw [List.get?_eq_get hj'] at hj
    exact (Option.some.inj hj).symm
  intro he
  apply hne
  have hi2 : i < (pool0.map ProviderStatus.uuid).length := by simpa
  have hj2 : j < (pool0.map ProviderStatus.uuid).length := by simpa
  have hmap : (pool0.map ProviderStatus.uuid).get ⟨i, hi2⟩ =
      (pool0.map ProviderStatus.uuid).get ⟨j, hj2⟩ := by
    simp only [List.get_eq_getElem, List.getElem_map]
    rw [← hip, ← hjq]
    exact he
  exact hnodup.getElem_inj_iff.mp hmap

theorem c1Inv_sweepRecord
    (gt : String → Int) (nm : Int) (ns : String) (pr : String → ProviderConfig → Bool)
    {t0 : String} {i0 : Nat} {pool0 : List ProviderStatus} {r0 : ProviderStatus}
    (hwrap : ∀ p ∈ pool0, p.uuid = p.config.uuid)
    (hnodup : (pool0.map ProviderStatus.uuid).Nodup)
    (hr0 : pool0.get? i0 = some r0) :
    ∀ (s : PoolState) (t : String) (j : Nat),
      c1Inv t0 i0 pool0 r0 s → c1Inv t0 i0 pool0 r0 (sweepRecord gt nm ns pr s t j) := by
  intro s t j hinv
  cases hb : (alookup s.providerStatus t).bind (fun pool => pool.get? j) with
  | none =>
      simp only [sweepRecord, hb]
      exact hinv
  | some q =>
      have hs : sweepRecord gt nm ns pr s t j = sweepRecordAct gt nm ns pr s t q.config := by
        simp only [sweepRecord, hb]
      rw [hs]
      obtain ⟨pool, halook, hget⟩ := Option.bind_eq_some.mp hb
      rw [sweepRecordAct]
      split
      · exact hinv
      · by_cases hch : q.config.checkHealth = true
        · have hu : t = t0 → q.config.uuid ≠ r0.uuid := by
            intro ht
            subst ht
            obtain ⟨pool', halook', hstat, hconf, r, hri, hru, hrh, hrl, hrc⟩ := hinv
            rw [halook] at halook'
            cases halook'
            by_cases hij : j = i0
            · subst hij
              rw [hget] at hri
              cases hri
              rw [hch] at hrc
              exact Bool.noConfusion hrc
            · have hcj := hconf j
              rw [hget, Option.map_some'] at hcj
              cases hq0 : pool0.get? j with
              | none => rw [hq0] at hcj; exact Option.noConfusion hcj
              | some q0 =>
                  rw [hq0, Option.map_some'] at hcj
                  have hqq : q.config.uuid = q0.config.uuid := Option.some.inj hcj
                  have hq0m : q0 ∈ pool0 := List.get?_mem hq0
                  rw [hqq, ← hwrap q0 hq0m]
                  exact nodup_uuid_get?_ne hnodup hq0 hr0 hij
          have hcp : checkProviderHealth pr t q.config = some (pr t q.config) := by
            simp [checkProviderHealth, hch]
          rw [hcp]
          cases hpb : pr t q.config
          · show c1Inv t0 i0 pool0 r0 (markProviderUnhealthy s t (some q.config.uuid) ns)
            rcases markProviderUnhealthy_eq_or s t q.config.uuid ns with h | h
            · rw [h]; exact hinv
            · rw [h]
              exact c1Inv_modify_other _ _ _ hinv (unhealthyStep_uuid s.maxErrorCount ns) hu
          · show c1Inv t0 i0 pool0 r0 (markProviderHealthy s t (some q.config.uuid) false)
            rcases markProviderHealthy_eq_or s t q.config.uuid false with h | h
            · rw [h]; exact hinv
            · rw [h]
              exact c1Inv_modify_other _ _ _ hinv (healthyStep_uuid false) hu
        · have hcp : checkProviderHealth pr t q.config = none := by
            simp only [Bool.not_eq_true] at hch
            simp [checkProviderHealth, hch]
          rw [hcp]
          show c1Inv t0 i0 pool0 r0 (resetProviderCounters s t (some q.config.uuid))
          rcases resetProviderCounters_eq_or s t q.config.uuid with h | h
          · rw [h]; exact hinv
          · rw [h]
            exact c1Inv_modify_preserving _ _ _ hinv (fun c => ⟨rfl, rfl, rfl, rfl⟩)

theorem foldl_preserves {β : Type} (P : PoolState → Prop) (step : PoolState → β → PoolState)
    (hstep : ∀ s b, P s → P (step s b)) :
    ∀ (l : List β) (s : PoolState), P s → P (l.foldl step s) := by
  intro l
  induction l with
  | nil => intro s hs; exact hs
  | cons b rest ih => intro s hs; exact ih _ (hstep s b hs)

theorem c1Inv_performHealthChecks
    (gt : String → Int) (nm : Int) (ns : String) (pr : String → ProviderConfig → Bool)
    {t0 : String} {i0 : Nat} {pool0 : List ProviderStatus} {r0 : ProviderStatus}
    (hwrap : ∀ p ∈ pool0, p.uuid = p.config.uuid)
    (hnodup : (pool0.map ProviderStatus.uuid).Nodup)
    (hr0 : pool0.get? i0 = some r0)
    (s : PoolState) (hs : c1Inv t0 i0 pool0 r0 s) :
    c1Inv t0 i0 pool0 r0 (performHealthChecks gt nm ns pr s) := by
  unfold performHealthChecks
  apply foldl_preserves _ _ ?_ _ _ hs
  intro s1 t hs1
  unfold sweepPool
  apply foldl_preserves _ _ ?_ _ _ hs1
  intro s2 i hs2
  exact c1Inv_sweepRecord gt nm ns pr hwrap hnodup hr0 s2 t i hs2

/-- A record with `checkHealth = false` carrying accumulated error and usage
counts. -/
def exCheckFalse : ProviderConfig :=
  { uuid := "f1", isHealthy := true, isDisabled := false, lastUsed := none,
    usageCount := 5, errorCount := 2, lastErrorTime := none, checkHealth := false,
    checkModelName := none, notSupportedModels := .absent }

/-- A pool holding only the `checkHealth = false` record. -/
def exPoolCheckFalse : PoolState :=
  { providerStatus := [("A", [{ config := exCheckFalse, uuid := "f1" }])],
    roundRobinIndex := [],
    maxErrorCount := 3, healthCheckInterval := 600000 }

/-- Counterexample to C1 as stated: for the `checkHealth = false` record
`"f1"` with `errorCount = 2` and `usageCount = 5`, one run of the health sweep
resets both counters to 0 (the sweep routes such records through
`resetProviderCounters`), so the sweep does not leave all of `isHealthy`,
`errorCount`, `usageCount`, `lastErrorTime` unchanged. -/
theorem sweep_checkHealth_false_counters_cleared :
    (findProvider exPoolCheckFalse "A" "f1").map
        (fun p => (p.config.checkHealth, p.config.errorCount, p.config.usageCount)) =
      some (false, 2, 5) ∧
    (findProvider (performHealthChecks (fun _ => 0) 0 "2024-06-01T00:00:00.000Z"
        (fun _ _ => false) exPoolCheckFalse) "A" "f1").map
        (fun p => (p.config.errorCount, p.config.usageCount)) = some (0, 0) := by
  decide

/-- C1 (amended): for every record whose `checkHealth` field is false — its
uuid unique in its pool, with the wrapper uuid matching the config uuid, as
`initializeProviderStatus` guarantees — a run of the health sweep leaves the
record's `isHealthy` and `lastErrorTime` unchanged.  (Its `errorCount` and
`usageCount` are not in general preserved: the sweep calls
`resetProviderCounters` on such records.) -/
theorem performHealthChecks_checkHealth_false_frame
    (gt : String → Int) (nm : Int) (ns : String) (pr : String → ProviderConfig → Bool)
    (st : PoolState) (t0 : String) (i0 : Nat) (pool0 : List ProviderStatus) (r0 : ProviderStatus)
    (halook : alookup st.providerStatus t0 = some pool0)
    (hr0 : pool0.get? i0 = some r0)
    (hch : r0.config.checkHealth = false)
    (hwrap : ∀ p ∈ pool0, p.uuid = p.config.uuid)
    (hnodup : (pool0.map ProviderStatus.uuid).Nodup) :
    ∃ pool r, alookup (performHealthChecks gt nm ns pr st).providerStatus t0 = some pool ∧
      pool.get? i0 = some r ∧
      r.config.isHealthy = r0.config.isHealthy ∧
      r.config.lastErrorTime = r0.config.lastErrorTime := by
  have hinv0 : c1Inv t0 i0 pool0 r0 st :=
    ⟨pool0, halook, fun j => rfl, fun j => rfl, r0, hr0, rfl, rfl, rfl, hch⟩
  obtain ⟨pool, halook', _, _, r, hri, _, hrh, hrl, _⟩ :=
    c1Inv_performHealthChecks gt nm ns pr hwrap hnodup hr0 st hinv0
  exact ⟨pool, r, halook', hri, hrh, hrl⟩

/-- Witness for the amended C1: sweeping the pool that holds only the
`checkHealth = false` record keeps its `isHealthy` and `lastErrorTime`. -/
theorem performHealthChecks_checkHealth_false_frame_witness :
    exCheckFalse.checkHealth = false ∧
    ∃ pool r, alookup (performHealthChecks (fun _ => 0) 0 "2024-06-01T00:00:00.000Z"
        (fun _ _ => false) exPoolCheckFalse).providerStatus "A" = some pool ∧
      pool.get? 0 = some r ∧
      r.config.isHealthy = ({ config := exCheckFalse, uuid := "f1" } : ProviderStatus).config.isHealthy ∧
      r.config.lastErrorTime = ({ config := exCheckFalse, uuid := "f1" } : ProviderStatus).config.lastErrorTime :=
  ⟨by decide,
   performHealthChecks_checkHealth_false_frame (fun _ => 0) 0 "2024-06-01T00:00:00.000Z"
     (fun _ _ => false) exPoolCheckFalse "A" 0
     [{ config := exCheckFalse, uuid := "f1" }] { config := exCheckFalse, uuid := "f1" }
     (by decide) (by decide) (by decide) (by decide) (by decide)⟩

